import Mathlib

/-!
Shallow embedding of the business-document analyzer
(`src/ideaevalution.py`): pure text-heuristic rules producing a
structured report, plus the upload boundary.  Python strings are
modelled as Lean `String` (lists of characters, ASCII semantics for
character classes), machine integers as `Nat` (all counts and scores
are non-negative), and fallible parsing as `Except`.
-/

/-- One whitespace character, as matched by the regex class and by
Python's `str.strip` (ASCII part). -/
def isSpaceChar (c : Char) : Bool :=
  c == ' ' || c == '\t' || c == '\n' || c == '\r' || c == '\x0b' || c == '\x0c'

/-- An ASCII letter: what the character class of capitalized-word capture
matches once the IGNORECASE flag is applied. -/
def isAsciiAlpha (c : Char) : Bool :=
  (decide ('A' ≤ c) && decide (c ≤ 'Z')) || (decide ('a' ≤ c) && decide (c ≤ 'z'))

/-- A word character (regex word class, ASCII part). -/
def isWordChar (c : Char) : Bool :=
  isAsciiAlpha c || (decide ('0' ≤ c) && decide (c ≤ '9')) || c == '_'

/-- `listIsPre p s` holds when `p` is an initial segment of `s`. -/
def listIsPre : List Char → List Char → Bool
  | [], _ => true
  | _ :: _, [] => false
  | a :: as, b :: bs => a == b && listIsPre as bs

/-- Case-insensitive initial-segment test (both sides lowered
character by character), used for regex matching under IGNORECASE. -/
def ciIsPre : List Char → List Char → Bool
  | [], _ => true
  | _ :: _, [] => false
  | a :: as, b :: bs => (a.toLower == b.toLower) && ciIsPre as bs

/-- Python `str.lower()` (ASCII semantics, matching `Char.toLower`). -/
def lowerStr (s : String) : String := ⟨s.data.map Char.toLower⟩

/-- Python `s.startswith(p)`. -/
def strStartsWith (p s : String) : Bool := listIsPre p.data s.data

/-- Python `s.endswith(p)`. -/
def strEndsWith (p s : String) : Bool := listIsPre p.data.reverse s.data.reverse

/-- Python `p in s` (substring containment). -/
def containsSub (pat : List Char) : List Char → Bool
  | [] => pat.isEmpty
  | c :: rest => listIsPre pat (c :: rest) || containsSub pat rest

/-- Python `pat in hay` on strings. -/
def pyIn (pat hay : String) : Bool := containsSub pat.data hay.data

/-- Fuel-driven core of Python `hay.count(pat)`: number of
non-overlapping occurrences, scanning left to right.  With
`fuel ≥ hay.length` and a non-empty pattern this is exact, since every
step consumes at least one character. -/
def countOccFuel (pat : List Char) : Nat → List Char → Nat
  | 0, _ => 0
  | _ + 1, [] => 0
  | fuel + 1, c :: rest =>
    if listIsPre pat (c :: rest) then
      1 + countOccFuel pat fuel ((c :: rest).drop pat.length)
    else
      countOccFuel pat fuel rest

/-- Python `hay.count(pat)` for the non-empty keywords used here. -/
def pyCount (hay pat : String) : Nat := countOccFuel pat.data hay.data.length hay.data

/-- Python `str.strip()` on a character list (ASCII whitespace). -/
def pyStrip (l : List Char) : List Char :=
  ((l.dropWhile isSpaceChar).reverse.dropWhile isSpaceChar).reverse

/-- `"sep".join(parts)`. -/
def joinSep (sep : String) : List String → String
  | [] => ""
  | [s] => s
  | s :: rest => s ++ sep ++ joinSep sep rest

/-- Presence of a dollar sign immediately followed by a digit: the
feasibility regex searching for a dollar amount. -/
def hasDollarNum : List Char → Bool
  | c :: d :: rest => (c == '$' && d.isDigit) || hasDollarNum (d :: rest)
  | _ => false

/-- The fixed sentinel carried by every extraction failure. -/
def sentinelPre : String := "Text extraction failed"

/-- The four scalability categories with their keyword lists, exactly as
hard-coded (note the keyword "CI/CD" is kept in its original case). -/
def scalability_keywords : List (String × List String) :=
  [("architecture", ["microservices", "kubernetes", "serverless"]),
   ("growth", ["expand", "global", "scale"]),
   ("automation", ["CI/CD", "terraform", "ansible"]),
   ("limitations", ["bottleneck", "constraint", "limit"])]

/-- `sum(text_lower.count(keyword) for keyword in keywords)`. -/
def categoryScore (text_lower : String) (keywords : List String) : Nat :=
  (keywords.map (fun k => pyCount text_lower k)).sum

/-- The rating ladder applied to the total scalability count. -/
def scalability_rating (total : Nat) : String :=
  if total > 5 then "High" else if total > 2 then "Medium" else "Low"

/-- The six literal alternatives of the competitor trigger group, in the
alternation order of the regex (optional plural tried greedily first). -/
def trigLits : List (List Char) :=
  ["similar to".data, "like".data, "competitors".data, "competitor".data,
   "alternatives".data, "alternative".data]

/-- Try to match one trigger alternative at the head of `s`
(case-insensitively); returns the literal that matched.  The
alternatives start with pairwise distinct letters except for the
singular/plural pairs, where the greedy plural is tried first, so this
if-chain realises the regex alternation exactly. -/
def matchTrig (s : List Char) : Option (List Char) :=
  if ciIsPre "similar to".data s then some "similar to".data
  else if ciIsPre "like".data s then some "like".data
  else if ciIsPre "competitors".data s then some "competitors".data
  else if ciIsPre "competitor".data s then some "competitor".data
  else if ciIsPre "alternatives".data s then some "alternatives".data
  else if ciIsPre "alternative".data s then some "alternative".data
  else none

/-- After the trigger: one whitespace character, then a letter followed
by a greedy non-empty run of word characters (the captured group under
IGNORECASE).  Returns the capture and the number of characters
consumed. -/
def matchAfterTrig : List Char → Option (String × Nat)
  | sp :: a :: rest =>
    if isSpaceChar sp && isAsciiAlpha a then
      let ws := rest.takeWhile isWordChar
      if ws.isEmpty then none else some (⟨a :: ws⟩, 2 + ws.length)
    else none
  | _ => none

/-- A full competitor-regex match starting exactly at the head of `s`:
capture and total length consumed. -/
def matchCompAt (s : List Char) : Option (String × Nat) :=
  match matchTrig s with
  | none => none
  | some p =>
    match matchAfterTrig (s.drop p.length) with
    | none => none
    | some (w, k) => some (w, p.length + k)

/-- Fuel-driven scan of `re.finditer`: leftmost, non-overlapping matches
of the competitor regex, in text order.  Every match consumes at least
one character, so `fuel ≥ s.length` makes the scan exact. -/
def findCompsFuel : Nat → List Char → List String
  | 0, _ => []
  | _ + 1, [] => []
  | fuel + 1, c :: rest =>
    match matchCompAt (c :: rest) with
    | some (w, n) => w :: findCompsFuel fuel ((c :: rest).drop n)
    | none => findCompsFuel fuel rest

/-- All capture groups of the competitor regex over the raw text. -/
def findCompetitors (text : String) : List String :=
  findCompsFuel text.data.length text.data

/-- The four differentiator keywords, in regex alternation order. -/
def diffPats : List (List Char) :=
  ["unique".data, "different".data, "only".data, "exclusive".data]

/-- Try the differentiator alternatives at the head of `s`; each must be
followed by one whitespace character.  Returns the length consumed. -/
def matchDiffAt (pats : List (List Char)) (s : List Char) : Option Nat :=
  match pats with
  | [] => none
  | p :: ps =>
    if listIsPre p s then
      match s.drop p.length with
      | c :: _ => if isSpaceChar c then some (p.length + 1) else matchDiffAt ps s
      | [] => matchDiffAt ps s
    else matchDiffAt ps s

/-- Fuel-driven count of `re.findall` matches of the differentiator
pattern (non-overlapping, left to right). -/
def countDiffsFuel : Nat → List Char → Nat
  | 0, _ => 0
  | _ + 1, [] => 0
  | fuel + 1, c :: rest =>
    match matchDiffAt diffPats (c :: rest) with
    | some n => 1 + countDiffsFuel fuel ((c :: rest).drop n)
    | none => countDiffsFuel fuel rest

/-- Number of differentiator matches over the lowercased text. -/
def countDifferentiators (text_lower : String) : Nat :=
  countDiffsFuel text_lower.data.length text_lower.data

/-- Split on every sentence-terminal character, as the summary regex
split does. -/
def splitPunct : List Char → List (List Char)
  | [] => [[]]
  | c :: rest =>
    if c == '.' || c == '!' || c == '?' then [] :: splitPunct rest
    else
      match splitPunct rest with
      | s :: ss => (c :: s) :: ss
      | [] => [[c]]

/-- `robust_summary`: first three non-empty sentence fragments joined
with ". ", a trailing period when any fragment existed; fixed message on
empty or sentinel input.  (The internal exception handler of the source
is unreachable for pure string input and is not modelled.) -/
def robust_summary (text : String) : String :=
  if text = "" ∨ strStartsWith sentinelPre text = true then
    "No content available for summary"
  else
    let sentences := ((splitPunct text.data).map pyStrip).filter (fun s => !s.isEmpty)
    joinSep ". " ((sentences.take 3).map (fun l => (⟨l⟩ : String)))
      ++ (if sentences.isEmpty then "" else ".")

structure ScalabilityDetails where
  architecture : Nat
  growth : Nat
  automation : Nat
  limitations : Nat
deriving DecidableEq

structure Scalability where
  score : Nat
  rating : String
  details : ScalabilityDetails
deriving DecidableEq

structure Market where
  existing_usage : Bool
  competitors : List String
  differentiators : Nat
  case_studies : Bool
deriving DecidableEq

/-- The dictionary returned by `analyze_content`. -/
structure Analysis where
  summary : String
  key_findings : List String
  scalability : Scalability
  market : Market
  feasibility : List String
  recommendations : List String
deriving DecidableEq

/-- The fixed report returned when the text is empty or carries the
extraction-failure sentinel (lines 72-94 of the source). -/
def failure_analysis : Analysis :=
  { summary := "No content available for analysis"
    key_findings := ["Document could not be processed"]
    scalability := ⟨0, "Not assessed", ⟨0, 0, 0, 0⟩⟩
    market := ⟨false, [], 0, false⟩
    feasibility := ["Analysis unavailable"]
    recommendations := ["Upload a valid DOCX file"] }

/-- The body of `analyze_content` past the early return: all rule
families evaluated on the (lowercased where the source lowercases)
text.  Python's `list(set(...))` is modelled by `List.dedup`; its
iteration order is unspecified in Python, and every property proved
below is order-independent. -/
def analyze_valid (text : String) : Analysis :=
  let text_lower := lowerStr text
  let arch := categoryScore text_lower ["microservices", "kubernetes", "serverless"]
  let growth := categoryScore text_lower ["expand", "global", "scale"]
  let auto := categoryScore text_lower ["CI/CD", "terraform", "ansible"]
  let limits := categoryScore text_lower ["bottleneck", "constraint", "limit"]
  let total := arch + growth + auto + limits
  let comps := (findCompetitors text).dedup
  let existing := pyIn "used by" text_lower || pyIn "deployed at" text_lower
      || pyIn "implemented with" text_lower || pyIn "customers include" text_lower
  let diffs := countDifferentiators text_lower
  let cases := pyIn "case study" text_lower || pyIn "success story" text_lower
      || pyIn "testimonial" text_lower
  let fin_issue := pyIn "financial" text_lower && !hasDollarNum text.data
  let mkt_issue := pyIn "market" text_lower
      && !(pyIn "research" text_lower || pyIn "analysis" text_lower)
  let issues0 := (if fin_issue then ["Missing specific financial numbers"] else [])
      ++ (if mkt_issue then ["Missing market research/analysis"] else [])
  let feas := if issues0.isEmpty then ["No major feasibility issues detected"] else issues0
  let r1 := pyIn "scale" text_lower && !(pyIn "test" text_lower || pyIn "load" text_lower)
  let r2 := pyIn "competitor" text_lower
      && !(pyIn "compare" text_lower || pyIn "differentiat" text_lower)
  let recs0 := (if r1 then ["Add load testing documentation"] else [])
      ++ (if r2 then ["Include competitor comparison"] else [])
  let recs := if recs0.isEmpty then ["Document appears comprehensive"] else recs0
  { summary := robust_summary text
    key_findings := ["Contains business content",
      "Found " ++ toString comps.length ++ " competitors",
      "Found " ++ toString diffs ++ " differentiators"]
    scalability := ⟨total, scalability_rating total, ⟨arch, growth, auto, limits⟩⟩
    market := ⟨existing, comps.take 3, diffs, cases⟩
    feasibility := feas
    recommendations := recs }

/-- `analyze_content`: early return on empty or sentinel text, rule
evaluation otherwise. -/
def analyze_content (text : String) : Analysis :=
  if text = "" ∨ strStartsWith sentinelPre text = true then failure_analysis
  else analyze_valid text

/-- The status ladder of `compute_viability_score`. -/
def viability_status_of (score : Nat) : String :=
  if score ≥ 80 then "Strong" else if score ≥ 60 then "Promising"
  else "Needs Improvement"

/-- `compute_viability_score`: weighted sum plus two flat bonuses, and
the status ladder. -/
def compute_viability_score (analysis : Analysis) : Nat × String :=
  let score := analysis.scalability.score * 10 + analysis.market.differentiators * 5
    + (if analysis.market.existing_usage then 10 else 0)
    + (if analysis.feasibility.isEmpty = true
         ∨ "No major feasibility issues detected" ∈ analysis.feasibility
       then 10 else 0)
  (score, viability_status_of score)

/-- An uploaded file at the boundary: its declared filename and the
outcome of parsing its bytes as a paragraph-structured document —
`Except.error e` when the parser raises with message `e`,
`Except.ok ps` giving the paragraph texts otherwise. -/
structure UploadFile where
  filename : String
  paragraphs : Except String (List String)

/-- `safe_extract_text`: extension check, parse, join non-empty stripped
paragraphs; every failure becomes a sentinel string and is never
raised. -/
def safe_extract_text (file : UploadFile) : String :=
  if !strEndsWith ".docx" (lowerStr file.filename) then
    "Text extraction failed: Only .docx files are supported"
  else
    match file.paragraphs with
    | .error e => "Text extraction failed: " ++ e
    | .ok paras =>
      let ps := (paras.map (fun p => (⟨pyStrip p.data⟩ : String))).filter (fun p => p ≠ "")
      if ps.isEmpty then "Document appears to be empty" else joinSep "\n" ps

structure ScalabilityAnalysis where
  score : Nat
  rating : String
  architecture_score : Nat
  growth_potential : Nat
  automation_level : Nat
  identified_limitations : Nat
deriving DecidableEq

/-- The response model, with the hard-coded field defaults of the
source's response class. -/
structure AnalysisResponse where
  filename : String
  summary : String := "No summary available"
  key_findings : List String := ["No key findings identified"]
  scalability_analysis : ScalabilityAnalysis := ⟨0, "Not assessed", 0, 0, 0, 0⟩
  market_validation : Market := ⟨false, [], 0, false⟩
  feasibility_issues : List String := ["No feasibility issues detected"]
  recommendations : List String := ["No specific recommendations"]
  viability_score : Nat := 0
  viability_status : String := "Not assessed"
deriving DecidableEq

/-- The top-level operation.  The surrounding `try`/`except` of the
source catches any unexpected exception raised while assembling the
report; that nondeterministic fault is modelled by the explicit
`assembly_error` argument: `some e` means an exception with message `e`
was raised, `none` means assembly ran to completion. -/
def analyze_document (file : UploadFile) (assembly_error : Option String) :
    AnalysisResponse :=
  match assembly_error with
  | some e =>
    { filename := file.filename
      summary := "Analysis failed: " ++ e
      key_findings := ["Complete analysis failure"]
      feasibility_issues := ["System error occurred"]
      recommendations := ["Contact support"] }
  | none =>
    let text := safe_extract_text file
    let analysis := analyze_content text
    let vs := compute_viability_score analysis
    { filename := file.filename
      summary := analysis.summary
      key_findings := analysis.key_findings
      scalability_analysis := ⟨analysis.scalability.score, analysis.scalability.rating,
        analysis.scalability.details.architecture, analysis.scalability.details.growth,
        analysis.scalability.details.automation, analysis.scalability.details.limitations⟩
      market_validation := analysis.market
      feasibility_issues := analysis.feasibility
      recommendations := analysis.recommendations
      viability_score := vs.1
      viability_status := vs.2 }

/-- Sentinel-prefixed text takes the early-return branch. -/
lemma analyze_content_of_sentinel (text : String)
    (h : strStartsWith sentinelPre text = true) :
    analyze_content text = failure_analysis := by
  unfold analyze_content
  rw [if_pos (Or.inr h)]

/-- Non-empty, non-sentinel text takes the rule-evaluation branch. -/
lemma analyze_content_of_valid (text : String) (h1 : text ≠ "")
    (h2 : strStartsWith sentinelPre text = false) :
    analyze_content text = analyze_valid text := by
  unfold analyze_content
  rw [if_neg (by simp [h1, h2])]

/-- The rating ladder, characterised by the three threshold intervals. -/
lemma scalability_rating_iff (t : Nat) :
    (scalability_rating t = "High" ↔ 5 < t)
    ∧ (scalability_rating t = "Medium" ↔ (2 < t ∧ t ≤ 5))
    ∧ (scalability_rating t = "Low" ↔ t ≤ 2) := by
  unfold scalability_rating
  split_ifs with h5 h2
  · exact ⟨⟨fun _ => h5, fun _ => rfl⟩,
      ⟨fun h => absurd h (by decide), fun hh => absurd hh.2 (by omega)⟩,
      ⟨fun h => absurd h (by decide), fun hh => absurd hh (by omega)⟩⟩
  · exact ⟨⟨fun h => absurd h (by decide), fun hh => absurd hh h5⟩,
      ⟨fun _ => ⟨h2, by omega⟩, fun _ => rfl⟩,
      ⟨fun h => absurd h (by decide), fun hh => absurd hh (by omega)⟩⟩
  · exact ⟨⟨fun h => absurd h (by decide), fun hh => absurd hh h5⟩,
      ⟨fun h => absurd h (by decide), fun hh => absurd hh.1 h2⟩,
      ⟨fun _ => by omega, fun _ => rfl⟩⟩

/-- C1 (counterexample): on sentinel text the recommendations list is
not the one the claim states. -/
theorem c1_counterexample :
    (analyze_content "Text extraction failed: file corrupt").recommendations
      ≠ ["Upload a valid document"] := by decide

/-- C1 (amended): for every text carrying the extraction-failure
sentinel, the report is the fixed failure report — so no scoring rule
runs, the recommendations list equals exactly
["Upload a valid DOCX file"], and the scalability score is 0. -/
theorem c1_failure_report (text : String)
    (h : strStartsWith sentinelPre text = true) :
    analyze_content text = failure_analysis
    ∧ (analyze_content text).recommendations = ["Upload a valid DOCX file"]
    ∧ (analyze_content text).scalability.score = 0 := by
  have e := analyze_content_of_sentinel text h
  exact ⟨e, by rw [e]; rfl, by rw [e]; rfl⟩

/-- C1 witness: the amended statement at a concrete sentinel text. -/
theorem c1_failure_report_witness :
    strStartsWith sentinelPre "Text extraction failed: no file" = true
    ∧ (analyze_content "Text extraction failed: no file").recommendations
        = ["Upload a valid DOCX file"]
    ∧ (analyze_content "Text extraction failed: no file").scalability.score = 0 :=
  ⟨by decide, (c1_failure_report "Text extraction failed: no file" (by decide)).2.1,
    (c1_failure_report "Text extraction failed: no file" (by decide)).2.2⟩

/-- C2: on every text the rule evaluator processes, the scalability
score is the total of the four category counts, and the rating is
"High" iff the total is greater than 5, "Medium" iff it is greater than
2 and at most 5, and "Low" iff it is at most 2 (so a total of exactly 5
is "Medium"). -/
theorem c2_rating_of_total (text : String) (h1 : text ≠ "")
    (h2 : strStartsWith sentinelPre text = false) :
    (analyze_content text).scalability.score
      = (analyze_content text).scalability.details.architecture
        + (analyze_content text).scalability.details.growth
        + (analyze_content text).scalability.details.automation
        + (analyze_content text).scalability.details.limitations
    ∧ ((analyze_content text).scalability.rating = "High"
        ↔ 5 < (analyze_content text).scalability.score)
    ∧ ((analyze_content text).scalability.rating = "Medium"
        ↔ (2 < (analyze_content text).scalability.score
            ∧ (analyze_content text).scalability.score ≤ 5))
    ∧ ((analyze_content text).scalability.rating = "Low"
        ↔ (analyze_content text).scalability.score ≤ 2) := by
  rw [analyze_content_of_valid text h1 h2]
  exact ⟨rfl, (scalability_rating_iff _).1, (scalability_rating_iff _).2.1,
    (scalability_rating_iff _).2.2⟩

/-- C2 witness: a text with total exactly 5 is rated "Medium". -/
theorem c2_rating_of_total_witness :
    (analyze_content "scale scale scale scale scale").scalability.score = 5
    ∧ ((analyze_content "scale scale scale scale scale").scalability.rating = "Medium"
        ↔ (2 < (analyze_content "scale scale scale scale scale").scalability.score
            ∧ (analyze_content "scale scale scale scale scale").scalability.score ≤ 5)) :=
  ⟨by decide,
    (c2_rating_of_total "scale scale scale scale scale" (by decide) (by decide)).2.2.1⟩

/-- C3: the automation keyword "CI/CD" can never be counted: the text
is lowercased before counting but the keyword is kept in upper case, so
a document using "CI/CD" scores 0 in the automation category, while the
case-insensitive count the spec describes would find 1 occurrence. -/
theorem c3_cicd_keyword_dead :
    (analyze_content "We use CI/CD pipelines").scalability.details.automation = 0
    ∧ pyCount (lowerStr "We use CI/CD pipelines") "ci/cd" = 1 := by decide

/-- C9: whenever the assembly boundary catches an exception with
message `e`, the endpoint still returns a report: it carries the
filename, a summary embedding the error description, and the three
fixed lists. -/
theorem c9_assembly_failure_report (file : UploadFile) (e : String) :
    (analyze_document file (some e)).filename = file.filename
    ∧ (analyze_document file (some e)).summary = "Analysis failed: " ++ e
    ∧ (analyze_document file (some e)).key_findings = ["Complete analysis failure"]
    ∧ (analyze_document file (some e)).feasibility_issues = ["System error occurred"]
    ∧ (analyze_document file (some e)).recommendations = ["Contact support"] :=
  ⟨rfl, rfl, rfl, rfl, rfl⟩

/-- The feasibility list of the rule-evaluation branch, written out. -/
lemma analyze_valid_feasibility (text : String) :
    (analyze_valid text).feasibility =
      if ((if pyIn "financial" (lowerStr text) && !hasDollarNum text.data
            then ["Missing specific financial numbers"] else ([] : List String))
        ++ (if pyIn "market" (lowerStr text)
                && !(pyIn "research" (lowerStr text) || pyIn "analysis" (lowerStr text))
            then ["Missing market research/analysis"] else [])).isEmpty
      then ["No major feasibility issues detected"]
      else (if pyIn "financial" (lowerStr text) && !hasDollarNum text.data
            then ["Missing specific financial numbers"] else [])
        ++ (if pyIn "market" (lowerStr text)
                && !(pyIn "research" (lowerStr text) || pyIn "analysis" (lowerStr text))
            then ["Missing market research/analysis"] else []) := rfl

/-- On either branch, the feasibility list of `analyze_content` is
non-empty. -/
lemma analyze_content_feasibility_ne_nil (text : String) :
    (analyze_content text).feasibility ≠ [] := by
  unfold analyze_content
  split
  · intro h
    simp [failure_analysis] at h
  · rw [analyze_valid_feasibility]
    cases hf : (pyIn "financial" (lowerStr text) && !hasDollarNum text.data) <;>
      cases hm : (pyIn "market" (lowerStr text)
          && !(pyIn "research" (lowerStr text) || pyIn "analysis" (lowerStr text))) <;>
      simp [hf, hm]

/-- C6: for every text the rule evaluator processes, the feasibility
issues list is non-empty, and it contains the default message exactly
when neither the financial-numbers check nor the market-research check
fires. -/
theorem c6_feasibility_default (text : String) (h1 : text ≠ "")
    (h2 : strStartsWith sentinelPre text = false) :
    (analyze_content text).feasibility ≠ []
    ∧ ("No major feasibility issues detected" ∈ (analyze_content text).feasibility
        ↔ ((pyIn "financial" (lowerStr text) && !hasDollarNum text.data) = false
           ∧ (pyIn "market" (lowerStr text)
                && !(pyIn "research" (lowerStr text) || pyIn "analysis" (lowerStr text)))
              = false)) := by
  refine ⟨analyze_content_feasibility_ne_nil text, ?_⟩
  rw [analyze_content_of_valid text h1 h2, analyze_valid_feasibility]
  cases hf : (pyIn "financial" (lowerStr text) && !hasDollarNum text.data) <;>
    cases hm : (pyIn "market" (lowerStr text)
        && !(pyIn "research" (lowerStr text) || pyIn "analysis" (lowerStr text))) <;>
    simp

/-- C6 witness: a text firing neither check carries the default
message. -/
theorem c6_feasibility_default_witness :
    ("hello world" ≠ "")
    ∧ ("No major feasibility issues detected"
        ∈ (analyze_content "hello world").feasibility
      ↔ ((pyIn "financial" (lowerStr "hello world") && !hasDollarNum "hello world".data)
            = false
         ∧ (pyIn "market" (lowerStr "hello world")
              && !(pyIn "research" (lowerStr "hello world")
                    || pyIn "analysis" (lowerStr "hello world"))) = false)) :=
  ⟨by decide, (c6_feasibility_default "hello world" (by decide) (by decide)).2⟩

/-- The status ladder, characterised by the three threshold
intervals. -/
lemma viability_status_iff (s : Nat) :
    (viability_status_of s = "Strong" ↔ 80 ≤ s)
    ∧ (viability_status_of s = "Promising" ↔ (60 ≤ s ∧ s < 80))
    ∧ (viability_status_of s = "Needs Improvement" ↔ s < 60) := by
  unfold viability_status_of
  split_ifs with h8 h6
  · exact ⟨⟨fun _ => h8, fun _ => rfl⟩,
      ⟨fun h => absurd h (by decide), fun hh => absurd hh.2 (by omega)⟩,
      ⟨fun h => absurd h (by decide), fun hh => absurd hh (by omega)⟩⟩
  · exact ⟨⟨fun h => absurd h (by decide), fun hh => absurd hh h8⟩,
      ⟨fun _ => ⟨h6, by omega⟩, fun _ => rfl⟩,
      ⟨fun h => absurd h (by decide), fun hh => absurd hh (by omega)⟩⟩
  · exact ⟨⟨fun h => absurd h (by decide), fun hh => absurd hh h8⟩,
      ⟨fun h => absurd h (by decide), fun hh => absurd hh.1 h6⟩,
      ⟨fun _ => by omega, fun _ => rfl⟩⟩

/-- The status is always one of the three ladder values. -/
lemma viability_status_of_cases (s : Nat) :
    viability_status_of s = "Strong" ∨ viability_status_of s = "Promising"
    ∨ viability_status_of s = "Needs Improvement" := by
  unfold viability_status_of
  split_ifs <;> simp

/-- On a non-empty feasibility list, the score condition reduces to
membership of the default message. -/
lemma compute_viability_score_eq (a : Analysis) (h : a.feasibility ≠ []) :
    compute_viability_score a =
      (a.scalability.score * 10 + a.market.differentiators * 5
        + (if a.market.existing_usage then 10 else 0)
        + (if "No major feasibility issues detected" ∈ a.feasibility then 10 else 0),
       viability_status_of (a.scalability.score * 10 + a.market.differentiators * 5
        + (if a.market.existing_usage then 10 else 0)
        + (if "No major feasibility issues detected" ∈ a.feasibility then 10 else 0))) := by
  unfold compute_viability_score
  have hiff : (a.feasibility.isEmpty = true
        ∨ "No major feasibility issues detected" ∈ a.feasibility)
      ↔ "No major feasibility issues detected" ∈ a.feasibility := by
    constructor
    · rintro (hh | hh)
      · exact absurd (by simpa using hh) h
      · exact hh
    · exact Or.inr
  simp only [hiff]

/-- C7: for every input text, the viability score of the produced
analysis is 10 times the scalability total, plus 5 times the
differentiator count, plus 10 when existing usage was detected, plus 10
when no feasibility issue was flagged (the default message is present);
and the status is "Strong" iff the score is at least 80, "Promising"
iff it is in [60, 80), and "Needs Improvement" iff it is below 60. -/
theorem c7_viability_formula (text : String) :
    (compute_viability_score (analyze_content text)).1
      = (analyze_content text).scalability.score * 10
        + (analyze_content text).market.differentiators * 5
        + (if (analyze_content text).market.existing_usage then 10 else 0)
        + (if "No major feasibility issues detected" ∈ (analyze_content text).feasibility
           then 10 else 0)
    ∧ ((compute_viability_score (analyze_content text)).2 = "Strong"
        ↔ 80 ≤ (compute_viability_score (analyze_content text)).1)
    ∧ ((compute_viability_score (analyze_content text)).2 = "Promising"
        ↔ (60 ≤ (compute_viability_score (analyze_content text)).1
            ∧ (compute_viability_score (analyze_content text)).1 < 80))
    ∧ ((compute_viability_score (analyze_content text)).2 = "Needs Improvement"
        ↔ (compute_viability_score (analyze_content text)).1 < 60) := by
  rw [compute_viability_score_eq (analyze_content text)
    (analyze_content_feasibility_ne_nil text)]
  exact ⟨rfl, (viability_status_iff _).1, (viability_status_iff _).2.1,
    (viability_status_iff _).2.2⟩

/-- C8 (counterexample): a readable document with no non-empty
paragraphs does not yield the "could not be processed" report — its
extracted text is the literal "Document appears to be empty", which is
analyzed as ordinary content. -/
theorem c8_counterexample :
    safe_extract_text ⟨"plan.docx", Except.ok []⟩ = "Document appears to be empty"
    ∧ (analyze_document ⟨"plan.docx", Except.ok []⟩ none).summary
        = "Document appears to be empty."
    ∧ (analyze_document ⟨"plan.docx", Except.ok []⟩ none).summary
        ≠ "No content available for analysis"
    ∧ (analyze_document ⟨"plan.docx", Except.ok []⟩ none).key_findings
        ≠ ["Document could not be processed"] := by decide

/-- C8 (amended): for every unreadable upload — one whose extraction
yields the failure sentinel — the report has summary "No content
available for analysis" and key findings ["Document could not be
processed"]; a readable document with no non-empty paragraphs is
instead analyzed as the literal text "Document appears to be empty". -/
theorem c8_unreadable_report (file : UploadFile)
    (h : strStartsWith sentinelPre (safe_extract_text file) = true) :
    (analyze_document file none).summary = "No content available for analysis"
    ∧ (analyze_document file none).key_findings = ["Document could not be processed"] := by
  have e1 := analyze_content_of_sentinel _ h
  constructor <;> simp [analyze_document, e1, failure_analysis]

/-- C8 witness: a non-docx filename makes extraction fail, and the
report is the "could not be processed" one. -/
theorem c8_unreadable_report_witness :
    (analyze_document ⟨"plan.txt", Except.ok ["hello"]⟩ none).summary
        = "No content available for analysis"
    ∧ (analyze_document ⟨"plan.txt", Except.ok ["hello"]⟩ none).key_findings
        = ["Document could not be processed"] :=
  c8_unreadable_report ⟨"plan.txt", Except.ok ["hello"]⟩ (by decide)

/-- C10: the status computed by `compute_viability_score` is always one
of "Strong", "Promising", "Needs Improvement" — never "Not assessed";
and when extraction fails, the endpoint's report still carries
viability score 0 and status "Needs Improvement" even though its
scalability rating is "Not assessed". -/
theorem c10_status_never_not_assessed (a : Analysis) (file : UploadFile) :
    ((compute_viability_score a).2 = "Strong"
      ∨ (compute_viability_score a).2 = "Promising"
      ∨ (compute_viability_score a).2 = "Needs Improvement")
    ∧ (strStartsWith sentinelPre (safe_extract_text file) = true →
        (analyze_document file none).viability_score = 0
        ∧ (analyze_document file none).viability_status = "Needs Improvement"
        ∧ (analyze_document file none).scalability_analysis.rating = "Not assessed") := by
  constructor
  · exact viability_status_of_cases _
  · intro h
    have e1 := analyze_content_of_sentinel _ h
    have e2 : compute_viability_score failure_analysis = (0, "Needs Improvement") := by
      decide
    refine ⟨?_, ?_, ?_⟩
    · simp [analyze_document, e1, e2]
    · simp [analyze_document, e1, e2]
    · simp [analyze_document, e1, failure_analysis]

/-- C10 witness: a concrete failing upload gets score 0, status
"Needs Improvement", rating "Not assessed". -/
theorem c10_status_never_not_assessed_witness :
    (analyze_document ⟨"plan.txt", Except.ok []⟩ none).viability_score = 0
    ∧ (analyze_document ⟨"plan.txt", Except.ok []⟩ none).viability_status
        = "Needs Improvement"
    ∧ (analyze_document ⟨"plan.txt", Except.ok []⟩ none).scalability_analysis.rating
        = "Not assessed" :=
  (c10_status_never_not_assessed failure_analysis ⟨"plan.txt", Except.ok []⟩).2 (by decide)

/-- A case-insensitive initial-segment match determines the lowered
image of the matched segment. -/
lemma ciIsPre_take (p : List Char) :
    ∀ s : List Char, ciIsPre p s = true →
      (s.take p.length).map Char.toLower = p.map Char.toLower ∧ p.length ≤ s.length := by
  induction p with
  | nil => intro s _; simp
  | cons a as ih =>
    intro s h
    cases s with
    | nil => simp [ciIsPre] at h
    | cons b bs =>
      simp only [ciIsPre, Bool.and_eq_true, beq_iff_eq] at h
      obtain ⟨h1, h2⟩ := h
      obtain ⟨ih1, ih2⟩ := ih bs h2
      constructor
      · simp [List.take, ih1, h1]
      · simpa using ih2

/-- Every trigger literal is already lower case. -/
lemma trigLits_lower : ∀ p ∈ trigLits, p.map Char.toLower = p := by decide

/-- A trigger match yields one of the six literals, case-insensitively
at the head. -/
lemma matchTrig_spec (s : List Char) (p : List Char) (h : matchTrig s = some p) :
    p ∈ trigLits ∧ ciIsPre p s = true := by
  unfold matchTrig at h
  split_ifs at h with h1 h2 h3 h4 h5 h6 <;>
    (injection h with h'; subst h'; exact ⟨by decide, by assumption⟩)

/-- Shape of a successful post-trigger match: one whitespace character,
a letter, then a non-empty greedy run of word characters. -/
lemma matchAfterTrig_spec (r : List Char) (w : String) (k : Nat)
    (h : matchAfterTrig r = some (w, k)) :
    ∃ sp a ws rest, r = sp :: a :: (ws ++ rest) ∧ isSpaceChar sp = true
      ∧ isAsciiAlpha a = true ∧ ws ≠ [] ∧ w.data = a :: ws := by
  match r, h with
  | [], h => simp [matchAfterTrig] at h
  | [sp], h => simp [matchAfterTrig] at h
  | sp :: a :: rest, h =>
    by_cases hcond : (isSpaceChar sp && isAsciiAlpha a) = true
    · by_cases hws : (rest.takeWhile isWordChar).isEmpty = true
      · simp [matchAfterTrig, hcond, hws] at h
      · simp only [matchAfterTrig, hcond, if_true, hws, if_false,
          Bool.false_eq_true, Option.some.injEq, Prod.mk.injEq] at h
        refine ⟨sp, a, rest.takeWhile isWordChar, rest.dropWhile isWordChar,
          ?_, ?_, ?_, ?_, ?_⟩
        · rw [List.takeWhile_append_dropWhile]
        · exact ((Bool.and_eq_true _ _).mp hcond).1
        · exact ((Bool.and_eq_true _ _).mp hcond).2
        · simpa using hws
        · rw [← h.1]
    · simp [matchAfterTrig, hcond] at h

/-- Shape of a full competitor match at the head of `s`: a trigger
phrase (case-insensitively), one whitespace character, then the capture
— a letter followed by a non-empty run of word characters. -/
lemma matchCompAt_spec (s : List Char) (w : String) (n : Nat)
    (h : matchCompAt s = some (w, n)) :
    ∃ trig sp rest, s = trig ++ sp :: (w.data ++ rest)
      ∧ trig.map Char.toLower ∈ trigLits ∧ isSpaceChar sp = true
      ∧ (∃ a ws, w.data = a :: ws ∧ isAsciiAlpha a = true ∧ ws ≠ []) := by
  cases hm : matchTrig s with
  | none => simp [matchCompAt, hm] at h
  | some p =>
    simp only [matchCompAt, hm] at h
    cases ha : matchAfterTrig (s.drop p.length) with
    | none => rw [ha] at h; simp at h
    | some wk =>
      obtain ⟨w', k⟩ := wk
      rw [ha] at h
      simp at h
      obtain ⟨hw, _⟩ := h
      subst hw
      obtain ⟨hmem, hci⟩ := matchTrig_spec s p hm
      obtain ⟨htake, _⟩ := ciIsPre_take p s hci
      obtain ⟨sp, a, ws, rest, hr, hsp, halpha, hws, hwdata⟩ :=
        matchAfterTrig_spec _ _ _ ha
      refine ⟨s.take p.length, sp, rest, ?_, ?_, hsp, a, ws, hwdata, halpha, hws⟩
      · conv_lhs => rw [← List.take_append_drop p.length s]
        rw [hr, hwdata]
        simp
      · rw [htake, trigLits_lower p hmem]
        exact hmem

/-- Every capture emitted by the scanner arises from a match at some
suffix of the scanned text. -/
lemma findCompsFuel_mem (fuel : Nat) :
    ∀ (s : List Char) (w : String), w ∈ findCompsFuel fuel s →
      ∃ su, su <:+ s ∧ ∃ n, matchCompAt su = some (w, n) := by
  induction fuel with
  | zero => intro s w h; simp [findCompsFuel] at h
  | succ fuel ih =>
    intro s w h
    cases s with
    | nil => simp [findCompsFuel] at h
    | cons c rest =>
      simp only [findCompsFuel] at h
      cases hm : matchCompAt (c :: rest) with
      | some wn =>
        obtain ⟨w', n⟩ := wn
        rw [hm] at h
        simp at h
        rcases h with h | h
        · exact ⟨c :: rest, List.suffix_refl _, n, by rw [hm, h]⟩
        · obtain ⟨su, hsu, hn⟩ := ih _ w h
          exact ⟨su, hsu.trans (List.drop_suffix _ _), hn⟩
      | none =>
        rw [hm] at h
        obtain ⟨su, hsu, hn⟩ := ih rest w h
        exact ⟨su, hsu.trans (List.suffix_cons c rest), hn⟩

/-- Every competitor name in the report corresponds to a regex match
inside the text: a case-insensitive trigger phrase, one whitespace
character, then the name — a letter followed by at least one word
character. -/
lemma competitors_mem_spec (text w : String)
    (h : w ∈ (analyze_content text).market.competitors) :
    (∃ a ws, w.data = a :: ws ∧ isAsciiAlpha a = true ∧ ws ≠ [])
    ∧ ∃ pre trig sp rest, text.data = pre ++ (trig ++ sp :: (w.data ++ rest))
      ∧ trig.map Char.toLower ∈ trigLits ∧ isSpaceChar sp = true := by
  unfold analyze_content at h
  by_cases hg : (text = "" ∨ strStartsWith sentinelPre text = true)
  · rw [if_pos hg] at h
    simp [failure_analysis] at h
  · rw [if_neg hg] at h
    have heq : (analyze_valid text).market.competitors
        = ((findCompetitors text).dedup).take 3 := rfl
    rw [heq] at h
    have h' : w ∈ (findCompetitors text).dedup := (List.take_sublist _ _).subset h
    have h'' : w ∈ findCompetitors text := List.mem_dedup.mp h'
    obtain ⟨su, hsu, n, hmc⟩ := findCompsFuel_mem _ _ _ h''
    obtain ⟨trig, sp, rest, hdec, htl, hsp, hshape⟩ := matchCompAt_spec su w n hmc
    obtain ⟨pre, hpre⟩ := hsu
    exact ⟨hshape, pre, trig, sp, rest, by rw [← hpre, hdec], htl, hsp⟩

/-- C4 (counterexample): with the IGNORECASE flag the capitalized-word
class also matches lower-case words, so "like apple" yields the
competitor "apple", whose first character is not an upper-case
letter. -/
theorem c4_counterexample :
    (analyze_content "a product like apple").market.competitors = ["apple"]
    ∧ "apple".data.head? = some 'a' ∧ 'a'.isUpper = false := by decide

/-- C4 (amended): every competitor name extracted by the
market-validation rule is a word of at least two characters whose first
character is an ASCII letter of either case (IGNORECASE extends the
capitalized-word class to lower case), standing immediately after one
whitespace character that follows an occurrence of one of the trigger
phrases matched case-insensitively. -/
theorem c4_competitor_shape (text w : String)
    (h : w ∈ (analyze_content text).market.competitors) :
    (∃ a ws, w.data = a :: ws ∧ isAsciiAlpha a = true ∧ ws ≠ [])
    ∧ ∃ pre trig sp rest, text.data = pre ++ (trig ++ sp :: (w.data ++ rest))
      ∧ trig.map Char.toLower ∈ trigLits ∧ isSpaceChar sp = true :=
  competitors_mem_spec text w h

/-- C4 witness: the amended statement at the counterexample input. -/
theorem c4_competitor_shape_witness :
    (∃ a ws, "apple".data = a :: ws ∧ isAsciiAlpha a = true ∧ ws ≠ [])
    ∧ ∃ pre trig sp rest, "a product like apple".data
        = pre ++ (trig ++ sp :: ("apple".data ++ rest))
      ∧ trig.map Char.toLower ∈ trigLits ∧ isSpaceChar sp = true :=
  c4_competitor_shape "a product like apple" "apple" (by decide)

/-- C5: for every input text, the competitor list has at most 3
entries, contains no duplicates, and each entry follows an occurrence
of a trigger phrase matched case-insensitively (its lowered image is
one of the six trigger literals). -/
theorem c5_competitors_capped (text : String) :
    (analyze_content text).market.competitors.length ≤ 3
    ∧ (analyze_content text).market.competitors.Nodup
    ∧ ∀ w ∈ (analyze_content text).market.competitors,
        ∃ pre trig sp rest, text.data = pre ++ (trig ++ sp :: (w.data ++ rest))
          ∧ trig.map Char.toLower ∈ trigLits ∧ isSpaceChar sp = true := by
  refine ⟨?_, ?_, fun w hw => (competitors_mem_spec text w hw).2⟩
  · unfold analyze_content
    split
    · simp [failure_analysis]
    · have heq : (analyze_valid text).market.competitors
          = ((findCompetitors text).dedup).take 3 := rfl
      rw [heq, List.length_take]
      exact Nat.min_le_left _ _
  · unfold analyze_content
    split
    · simp [failure_analysis]
    · have heq : (analyze_valid text).market.competitors
          = ((findCompetitors text).dedup).take 3 := rfl
      rw [heq]
      exact List.Nodup.sublist (List.take_sublist _ _) (List.nodup_dedup _)

/-- C5 witness: an upper-case trigger is matched and the duplicate
capture is removed. -/
theorem c5_competitors_capped_witness :
    "Acme" ∈ (analyze_content "We are Similar TO Acme similar to Acme").market.competitors
    ∧ (analyze_content "We are Similar TO Acme similar to Acme").market.competitors.length ≤ 3
    ∧ (analyze_content "We are Similar TO Acme similar to Acme").market.competitors.Nodup
    ∧ ∃ pre trig sp rest, "We are Similar TO Acme similar to Acme".data
        = pre ++ (trig ++ sp :: ("Acme".data ++ rest))
      ∧ trig.map Char.toLower ∈ trigLits ∧ isSpaceChar sp = true :=
  ⟨by decide,
    (c5_competitors_capped "We are Similar TO Acme similar to Acme").1,
    (c5_competitors_capped "We are Similar TO Acme similar to Acme").2.1,
    (c5_competitors_capped "We are Similar TO Acme similar to Acme").2.2 "Acme" (by decide)⟩
